import Mathlib

/-!
Verification of the AutoRev geometric alignment engine.

The development shallowly embeds the geometry routines of the repository
(2D line and segment intersection, rectangle clipping with per-side offsets,
curve sampling, axis-orientation classification, grid-intersection anchor
location, and the viewport coordinate transforms) over the real numbers,
idealizing IEEE floats as reals.  Host API objects (Revit curves, views,
viewports) are modelled by records carrying exactly the data the scripts
read from them; a host call that can raise is modelled with Option.
-/

noncomputable section

namespace AutoRev

/-- Model-space 3D point/vector, mirroring the host XYZ type with real
coordinates. -/
structure XYZ where
  x : ℝ
  y : ℝ
  z : ℝ

namespace XYZ

/-- Componentwise addition, mirroring host XYZ addition. -/
instance : Add XYZ := ⟨fun a b => ⟨a.x + b.x, a.y + b.y, a.z + b.z⟩⟩

/-- Componentwise subtraction, mirroring host XYZ subtraction. -/
instance : Sub XYZ := ⟨fun a b => ⟨a.x - b.x, a.y - b.y, a.z - b.z⟩⟩

/-- Scalar multiple, mirroring the host method XYZ.Multiply. -/
def multiply (v : XYZ) (s : ℝ) : XYZ := ⟨v.x * s, v.y * s, v.z * s⟩

/-- Dot product, mirroring the host method XYZ.DotProduct. -/
def dotProduct (a b : XYZ) : ℝ := a.x * b.x + a.y * b.y + a.z * b.z

/-- Euclidean distance, mirroring the host method XYZ.DistanceTo. -/
def distanceTo (a b : XYZ) : ℝ :=
  Real.sqrt ((a.x - b.x) ^ 2 + (a.y - b.y) ^ 2 + (a.z - b.z) ^ 2)

theorem add_def (a b : XYZ) : a + b = ⟨a.x + b.x, a.y + b.y, a.z + b.z⟩ := rfl

theorem add_x (a b : XYZ) : (a + b).x = a.x + b.x := rfl

theorem add_y (a b : XYZ) : (a + b).y = a.y + b.y := rfl

theorem add_z (a b : XYZ) : (a + b).z = a.z + b.z := rfl

theorem sub_x (a b : XYZ) : (a - b).x = a.x - b.x := rfl

theorem sub_y (a b : XYZ) : (a - b).y = a.y - b.y := rfl

theorem sub_z (a b : XYZ) : (a - b).z = a.z - b.z := rfl

theorem distanceTo_self (a : XYZ) : distanceTo a a = 0 := by
  simp [distanceTo]

theorem distanceTo_comm (a b : XYZ) : distanceTo a b = distanceTo b a := by
  unfold distanceTo
  ring_nf

end XYZ

/-- Straight (bound) line, mirroring the host Line via its two endpoints
GetEndPoint 0 and GetEndPoint 1. -/
structure Line3 where
  p0 : XYZ
  p1 : XYZ

/-- Sides of the scope/crop rectangle, as named in the edge list of
set_grid_2d_extents_in_view. -/
inductive Side where
  | top
  | bottom
  | left
  | right
deriving DecidableEq

/-- Per-side offset mode, the two strings accepted by the script. -/
inductive Mode where
  | outside
  | inside
deriving DecidableEq

/-- Boolean test for the outside mode, mirroring the source comparison of the
mode string with the word outside. -/
def Mode.isOutside : Mode → Bool
  | Mode.outside => true
  | Mode.inside => false

/-- Squared planar (XY) distance, from dist2_xy in Grids2DOffsets script. -/
def dist2_xy (a b : XYZ) : ℝ :=
  (a.x - b.x) * (a.x - b.x) + (a.y - b.y) * (a.y - b.y)

theorem dist2_xy_self (a : XYZ) : dist2_xy a a = 0 := by
  simp [dist2_xy]

theorem dist2_xy_nonneg (a b : XYZ) : 0 ≤ dist2_xy a b := by
  unfold dist2_xy
  nlinarith [mul_self_nonneg (a.x - b.x), mul_self_nonneg (a.y - b.y)]

theorem dist2_xy_comm (a b : XYZ) : dist2_xy a b = dist2_xy b a := by
  unfold dist2_xy
  ring

/-- Parametric intersection of the infinite line through p with direction v
against the segment from a to b, from line_seg_intersection_2d in the
Grids2DOffsets script.  The source returns a tuple (ok, point, t, u); a
failed intersection (False, None, None, None) is modelled as none. -/
def line_seg_intersection_2d (p v a b : XYZ) (tol : ℝ) : Option (XYZ × ℝ × ℝ) :=
  let sx := b.x - a.x
  let sy := b.y - a.y
  let denom := v.x * sy - v.y * sx
  if |denom| < tol then none
  else
    let dx := a.x - p.x
    let dy := a.y - p.y
    let t := (dx * sy - dy * sx) / denom
    let u := (dx * v.y - dy * v.x) / denom
    if u < -tol ∨ u > 1 + tol then none
    else some (⟨p.x + t * v.x, p.y + t * v.y, a.z⟩, t, u)

/-- C10: line_seg_intersection_2d divides by the cross-product denominator only
when its absolute value is at least the tolerance: whenever the denominator is
smaller than the tolerance in absolute value — in particular for every pair
whose directions are parallel, such as a grid line collinear with a rectangle
edge — the function returns the no-intersection result (modelled as none)
instead of dividing by a near-zero quantity, and being a total Lean function it
never raises. -/
theorem line_seg_intersection_2d_near_parallel_none :
    ∀ (p v a b : XYZ) (tol : ℝ),
      (|v.x * (b.y - a.y) - v.y * (b.x - a.x)| < tol →
        line_seg_intersection_2d p v a b tol = none)
      ∧ (∀ lam : ℝ, 0 < tol → v.x = lam * (b.x - a.x) → v.y = lam * (b.y - a.y) →
        line_seg_intersection_2d p v a b tol = none) := by
  intro p v a b tol
  constructor
  · intro h
    unfold line_seg_intersection_2d
    simp only [if_pos h]
  · intro lam htol hx hy
    unfold line_seg_intersection_2d
    have h : |v.x * (b.y - a.y) - v.y * (b.x - a.x)| < tol := by
      rw [hx, hy]
      have : lam * (b.x - a.x) * (b.y - a.y) - lam * (b.y - a.y) * (b.x - a.x) = 0 := by
        ring
      rw [this, abs_zero]
      exact htol
    simp only [if_pos h]

/-- Witness for C10: a horizontal unit direction against the bottom edge of the
rectangle from the clipping scenario is parallel, the denominator is below the
default tolerance, and the routine reports no intersection. -/
theorem line_seg_intersection_2d_near_parallel_none_witness :
    |(1 : ℝ) * (⟨8, -5, 0⟩ : XYZ).y - (⟨8, -5, 0⟩ : XYZ).y| < 1 / 1000000000 ∧
      line_seg_intersection_2d ⟨0, 0, 0⟩ ⟨1, 0, 0⟩ ⟨2, -5, 0⟩ ⟨8, -5, 0⟩
        (1 / 1000000000) = none := by
  refine ⟨by norm_num, ?_⟩
  exact (line_seg_intersection_2d_near_parallel_none ⟨0, 0, 0⟩ ⟨1, 0, 0⟩
    ⟨2, -5, 0⟩ ⟨8, -5, 0⟩ (1 / 1000000000)).1 (by norm_num)

/-- Orthogonal projection of a point onto the 3D line through line_origin with
unit direction line_dir_unit, from project_point_onto_line_3d in the
Grids2DOffsets script; returns the projected point and the line parameter. -/
def project_point_onto_line_3d (point line_origin line_dir_unit : XYZ) :
    XYZ × ℝ :=
  let w : XYZ := ⟨point.x - line_origin.x, point.y - line_origin.y,
                  point.z - line_origin.z⟩
  let t := w.x * line_dir_unit.x + w.y * line_dir_unit.y + w.z * line_dir_unit.z
  (⟨line_origin.x + t * line_dir_unit.x,
    line_origin.y + t * line_dir_unit.y,
    line_origin.z + t * line_dir_unit.z⟩, t)

/-- Offset endpoint selection from the inner helper choose_endpoint of
set_grid_2d_extents_in_view: move the on-line point by offset_mag along the
unit direction v3, picking the candidate whose squared planar distance to the
rectangle center is larger (outside mode) or smaller (inside mode). -/
def choose_endpoint (v3 rect_center p_on : XYZ) (offset_mag : ℝ)
    (is_outside : Bool) : XYZ :=
  let q_plus : XYZ := ⟨p_on.x + offset_mag * v3.x, p_on.y + offset_mag * v3.y,
                       p_on.z + offset_mag * v3.z⟩
  let q_minus : XYZ := ⟨p_on.x - offset_mag * v3.x, p_on.y - offset_mag * v3.y,
                        p_on.z - offset_mag * v3.z⟩
  let d_plus := dist2_xy q_plus rect_center
  let d_minus := dist2_xy q_minus rect_center
  if (if is_outside then d_minus ≤ d_plus else d_plus ≤ d_minus) then q_plus
  else q_minus

/-- Endpoint identity remap from _map_endpoints_to_basis in the Grids2DOffsets
script: keep or swap the two new endpoints so that they pair with the basis
line endpoints at the smaller total squared planar distance.  A basis that is
not a straight line is modelled as none. -/
def map_endpoints_to_basis (p1 p2 : XYZ) (basis_line : Option Line3) :
    XYZ × XYZ :=
  match basis_line with
  | none => (p1, p2)
  | some bl =>
    let s_keep := dist2_xy p1 bl.p0 + dist2_xy p2 bl.p1
    let s_swap := dist2_xy p1 bl.p1 + dist2_xy p2 bl.p0
    if s_swap < s_keep then (p2, p1) else (p1, p2)

/-- Normalized 3D direction data of a grid line as computed at the top of
set_grid_2d_extents_in_view: the end-to-end difference vector. -/
def d3_of (gl : Line3) : XYZ :=
  ⟨gl.p1.x - gl.p0.x, gl.p1.y - gl.p0.y, gl.p1.z - gl.p0.z⟩

/-- Length of the 3D difference vector (source: math.sqrt of the component
squares). -/
def d3_len_of (gl : Line3) : ℝ :=
  Real.sqrt ((d3_of gl).x * (d3_of gl).x + (d3_of gl).y * (d3_of gl).y +
    (d3_of gl).z * (d3_of gl).z)

/-- Unit 3D direction of the grid line. -/
def v3_of (gl : Line3) : XYZ :=
  ⟨(d3_of gl).x / d3_len_of gl, (d3_of gl).y / d3_len_of gl,
   (d3_of gl).z / d3_len_of gl⟩

/-- Length of the planar projection of the unit direction (source: v2 is v3
with z zeroed, then its XY length). -/
def v2_len_of (gl : Line3) : ℝ :=
  Real.sqrt ((v3_of gl).x * (v3_of gl).x + (v3_of gl).y * (v3_of gl).y)

/-- Unit planar direction of the grid line. -/
def v2_of (gl : Line3) : XYZ :=
  ⟨(v3_of gl).x / v2_len_of gl, (v3_of gl).y / v2_len_of gl, 0⟩

/-- The four rectangle edges in the source order bottom, right, top, left
(counter-clockwise), each tagged with its side name. -/
def edgesOf (rect_corners : XYZ × XYZ × XYZ × XYZ) : List (XYZ × XYZ × Side) :=
  [(rect_corners.1, rect_corners.2.1, Side.bottom),
   (rect_corners.2.1, rect_corners.2.2.1, Side.right),
   (rect_corners.2.2.1, rect_corners.2.2.2, Side.top),
   (rect_corners.2.2.2, rect_corners.1, Side.left)]

/-- Raw edge intersections of the (planarized) grid line with the rectangle
boundary: the loop over edges in set_grid_2d_extents_in_view, calling
line_seg_intersection_2d with its default tolerance. -/
def rawHits (gl : Line3) (rect_corners : XYZ × XYZ × XYZ × XYZ) :
    List (XYZ × ℝ × Side) :=
  (edgesOf rect_corners).filterMap fun e =>
    (line_seg_intersection_2d ⟨gl.p0.x, gl.p0.y, rect_corners.1.z⟩ (v2_of gl)
      e.1 e.2.1 (1 / 1000000000)).map fun r => (r.1, r.2.1, e.2.2)

/-- Deduplication of coincident hits (source: keep a hit only if no already
kept hit lies within 1e-6 model distance). -/
def dedupHits (acc : List (XYZ × ℝ × Side)) :
    List (XYZ × ℝ × Side) → List (XYZ × ℝ × Side)
  | [] => acc
  | h :: rest =>
    if ∃ q ∈ acc, XYZ.distanceTo h.1 q.1 < 1 / 1000000 then dedupHits acc rest
    else dedupHits (acc ++ [h]) rest

/-- Deduplicated boundary hits of the grid line. -/
def uniqueHits (gl : Line3) (rect_corners : XYZ × XYZ × XYZ × XYZ) :
    List (XYZ × ℝ × Side) :=
  dedupHits [] (rawHits gl rect_corners)

/-- Stable insertion of a hit into a list sorted by ascending line parameter;
on parameter ties the incoming hit goes after existing ones, matching the
stability of the source sort. -/
def insertHit (h : XYZ × ℝ × Side) :
    List (XYZ × ℝ × Side) → List (XYZ × ℝ × Side)
  | [] => [h]
  | y :: ys => if h.2.1 < y.2.1 then h :: y :: ys else y :: insertHit h ys

/-- Stable sort of the hits by ascending line parameter, mirroring the source
hits.sort keyed on the parameter t. -/
def sortByT (l : List (XYZ × ℝ × Side)) : List (XYZ × ℝ × Side) :=
  l.foldl (fun acc h => insertHit h acc) []

/-- Failure and success results of set_grid_2d_extents_in_view.  The source
returns (False, message) for the five geometric rejections and (True, message)
after storing the new two-endpoint line; the updated constructor carries those
two endpoints. -/
inductive ExtentResult where
  | notALine
  | degenerate
  | unsuitableInPlan
  | noDoubleIntersection
  | tooShort
  | updated (p1 p2 : XYZ)

/-- Geometric core of set_grid_2d_extents_in_view up to (and including) the
minimum-length check, before the endpoint identity remap: validate the line,
intersect with the rectangle edges, deduplicate and order the hits, project
the extreme hits back onto the 3D line, and apply the per-side offsets. -/
def clip_endpoints (glOpt : Option Line3)
    (rect_corners : XYZ × XYZ × XYZ × XYZ) (rect_center : XYZ)
    (offsets_ft : Side → ℝ) (modes_by_side : Side → Mode)
    (tol min_len_ft : ℝ) : ExtentResult :=
  match glOpt with
  | none => ExtentResult.notALine
  | some gl =>
    if d3_len_of gl < tol then ExtentResult.degenerate
    else if v2_len_of gl < tol then ExtentResult.unsuitableInPlan
    else
      let hits := uniqueHits gl rect_corners
      if hits.length < 2 then ExtentResult.noDoubleIntersection
      else
        match (sortByT hits).head?, (sortByT hits).getLast? with
        | some hA, some hB =>
          let pA_on := (project_point_onto_line_3d hA.1 gl.p0 (v3_of gl)).1
          let pB_on := (project_point_onto_line_3d hB.1 gl.p0 (v3_of gl)).1
          let outsideA := (modes_by_side hA.2.2).isOutside
          let outsideB := (modes_by_side hB.2.2).isOutside
          let p1 := choose_endpoint (v3_of gl) rect_center pA_on
            (offsets_ft hA.2.2) outsideA
          let p2 := choose_endpoint (v3_of gl) rect_center pB_on
            (offsets_ft hB.2.2) outsideB
          if XYZ.distanceTo p1 p2 < min_len_ft then ExtentResult.tooShort
          else ExtentResult.updated p1 p2
        | _, _ => ExtentResult.noDoubleIntersection

/-- Full recompute_extent from set_grid_2d_extents_in_view: the geometric core
followed by the endpoint identity remap against the basis curve currently in
the view (the host write SetCurveInView and its construction fallback are
outside the geometric model). -/
def set_grid_2d_extents_in_view (glOpt : Option Line3)
    (rect_corners : XYZ × XYZ × XYZ × XYZ) (rect_center : XYZ)
    (offsets_ft : Side → ℝ) (modes_by_side : Side → Mode)
    (basis : Option Line3) (tol min_len_ft : ℝ) : ExtentResult :=
  match clip_endpoints glOpt rect_corners rect_center offsets_ft modes_by_side
      tol min_len_ft with
  | ExtentResult.updated p1 p2 =>
    let q := map_endpoints_to_basis p1 p2 basis
    ExtentResult.updated q.1 q.2
  | r => r

theorem sqrt_eq_of_mul_self {a b : ℝ} (hb : 0 ≤ b) (h : b * b = a) :
    Real.sqrt a = b := by
  rw [← h, Real.sqrt_mul_self hb]

/-- The straight grid line of the clipping scenario, from the origin to
(10, 0, 0). -/
def scLine : Line3 := ⟨⟨0, 0, 0⟩, ⟨10, 0, 0⟩⟩

/-- The rectangle corners of the clipping scenario: the axis-aligned
rectangle with corners (2, -5) and (8, 5), listed p00, p10, p11, p01. -/
def scCorners : XYZ × XYZ × XYZ × XYZ :=
  (⟨2, -5, 0⟩, ⟨8, -5, 0⟩, ⟨8, 5, 0⟩, ⟨2, 5, 0⟩)

/-- The center of the scenario rectangle. -/
def scCenter : XYZ := ⟨5, 0, 0⟩

theorem sc_d3 : d3_of scLine = ⟨10, 0, 0⟩ := by
  simp [d3_of, scLine]

theorem sc_d3_len : d3_len_of scLine = 10 := by
  rw [d3_len_of, sc_d3]
  simp only
  rw [show (10 : ℝ) * 10 + 0 * 0 + 0 * 0 = 100 by norm_num]
  exact sqrt_eq_of_mul_self (by norm_num) (by norm_num)

theorem sc_v3 : v3_of scLine = ⟨1, 0, 0⟩ := by
  rw [v3_of, sc_d3, sc_d3_len]
  simp only [XYZ.mk.injEq]
  norm_num

theorem sc_v2_len : v2_len_of scLine = 1 := by
  rw [v2_len_of, sc_v3]
  simp only
  rw [show (1 : ℝ) * 1 + 0 * 0 = 1 by norm_num]
  exact Real.sqrt_one

theorem sc_v2 : v2_of scLine = ⟨1, 0, 0⟩ := by
  rw [v2_of, sc_v3, sc_v2_len]
  simp only [XYZ.mk.injEq]
  norm_num

theorem sc_hit_bottom :
    line_seg_intersection_2d ⟨0, 0, 0⟩ ⟨1, 0, 0⟩ ⟨2, -5, 0⟩ ⟨8, -5, 0⟩
      (1 / 1000000000) = none := by
  norm_num [line_seg_intersection_2d]

theorem sc_hit_right :
    line_seg_intersection_2d ⟨0, 0, 0⟩ ⟨1, 0, 0⟩ ⟨8, -5, 0⟩ ⟨8, 5, 0⟩
      (1 / 1000000000) = some (⟨8, 0, 0⟩, 8, 1 / 2) := by
  norm_num [line_seg_intersection_2d, XYZ.mk.injEq, Prod.mk.injEq]

theorem sc_hit_top :
    line_seg_intersection_2d ⟨0, 0, 0⟩ ⟨1, 0, 0⟩ ⟨8, 5, 0⟩ ⟨2, 5, 0⟩
      (1 / 1000000000) = none := by
  norm_num [line_seg_intersection_2d]

theorem sc_hit_left :
    line_seg_intersection_2d ⟨0, 0, 0⟩ ⟨1, 0, 0⟩ ⟨2, 5, 0⟩ ⟨2, -5, 0⟩
      (1 / 1000000000) = some (⟨2, 0, 0⟩, 2, 1 / 2) := by
  norm_num [line_seg_intersection_2d, XYZ.mk.injEq, Prod.mk.injEq]

theorem sc_raw : rawHits scLine scCorners =
    [(⟨8, 0, 0⟩, 8, Side.right), (⟨2, 0, 0⟩, 2, Side.left)] := by
  rw [rawHits]
  simp only [sc_v2]
  simp only [scLine, scCorners, edgesOf, List.filterMap_cons,
    List.filterMap_nil]
  norm_num [sc_hit_bottom, sc_hit_right, sc_hit_top, sc_hit_left]

theorem sc_dist_28 : XYZ.distanceTo ⟨2, 0, 0⟩ ⟨8, 0, 0⟩ = 6 := by
  rw [XYZ.distanceTo]
  simp only
  rw [show ((2 : ℝ) - 8) ^ 2 + ((0 : ℝ) - 0) ^ 2 + ((0 : ℝ) - 0) ^ 2 = 36 by
    norm_num]
  exact sqrt_eq_of_mul_self (by norm_num) (by norm_num)

theorem sc_unique : uniqueHits scLine scCorners =
    [(⟨8, 0, 0⟩, 8, Side.right), (⟨2, 0, 0⟩, 2, Side.left)] := by
  rw [uniqueHits, sc_raw]
  rw [dedupHits]
  rw [if_neg (by simp)]
  rw [dedupHits]
  rw [if_neg (by simp [sc_dist_28]; norm_num)]
  rw [dedupHits]
  rfl

theorem sc_sorted :
    sortByT [(⟨8, 0, 0⟩, 8, Side.right), (⟨2, 0, 0⟩, 2, Side.left)] =
      [(⟨2, 0, 0⟩, 2, Side.left), (⟨8, 0, 0⟩, 8, Side.right)] := by
  rw [sortByT]
  simp only [List.foldl_cons, List.foldl_nil]
  rw [insertHit, insertHit]
  norm_num [insertHit]

theorem sc_dist_19 : XYZ.distanceTo ⟨1, 0, 0⟩ ⟨9, 0, 0⟩ = 8 := by
  rw [XYZ.distanceTo]
  simp only
  rw [show ((1 : ℝ) - 9) ^ 2 + ((0 : ℝ) - 0) ^ 2 + ((0 : ℝ) - 0) ^ 2 = 64 by
    norm_num]
  exact sqrt_eq_of_mul_self (by norm_num) (by norm_num)

theorem sc_clip_one :
    clip_endpoints (some scLine) scCorners scCenter (fun _ => 1)
      (fun _ => Mode.outside) (1 / 10000000) (1 / 10000) =
      ExtentResult.updated ⟨1, 0, 0⟩ ⟨9, 0, 0⟩ := by
  rw [clip_endpoints]
  rw [if_neg (by rw [sc_d3_len]; norm_num)]
  rw [if_neg (by rw [sc_v2_len]; norm_num)]
  simp only [sc_unique, sc_sorted, sc_v3, scCenter]
  norm_num [project_point_onto_line_3d, choose_endpoint, Mode.isOutside,
    dist2_xy, XYZ.mk.injEq]
  simp only [scLine]
  norm_num [sc_dist_19, XYZ.mk.injEq]

/-- C1: the straight grid line from the origin to (10, 0, 0), clipped against
the axis-aligned rectangle with corners (2, -5) and (8, 5) with offset 1 and
mode outside on all four sides, succeeds and yields the endpoints (1, 0, 0)
and (9, 0, 0): each boundary intersection (at x = 2 on the left edge and x = 8
on the right edge) is moved by the struck side offset magnitude 1 along the
line away from the rectangle center (5, 0, 0). -/
theorem grid_clip_offset_scenario :
    set_grid_2d_extents_in_view (some scLine) scCorners scCenter (fun _ => 1)
      (fun _ => Mode.outside) none (1 / 10000000) (1 / 10000) =
      ExtentResult.updated ⟨1, 0, 0⟩ ⟨9, 0, 0⟩ := by
  rw [set_grid_2d_extents_in_view, sc_clip_one]
  rfl

theorem insertHit_ne_nil (h : XYZ × ℝ × Side) (l : List (XYZ × ℝ × Side)) :
    insertHit h l ≠ [] := by
  cases l with
  | nil => simp [insertHit]
  | cons y ys =>
    rw [insertHit]
    split_ifs <;> simp

theorem foldl_insertHit_ne_nil (l : List (XYZ × ℝ × Side)) :
    ∀ acc, acc ≠ [] →
      List.foldl (fun a h => insertHit h a) acc l ≠ [] := by
  induction l with
  | nil => intro acc hacc; simpa using hacc
  | cons x xs ih =>
    intro acc _
    simp only [List.foldl_cons]
    exact ih (insertHit x acc) (insertHit_ne_nil x acc)

theorem sortByT_ne_nil {l : List (XYZ × ℝ × Side)} (hl : l ≠ []) :
    sortByT l ≠ [] := by
  cases l with
  | nil => exact absurd rfl hl
  | cons x xs =>
    rw [sortByT]
    simp only [List.foldl_cons]
    exact foldl_insertHit_ne_nil xs (insertHit x []) (insertHit_ne_nil x [])

theorem map_endpoints_to_basis_cases (p1 p2 : XYZ) (b : Option Line3) :
    map_endpoints_to_basis p1 p2 b = (p1, p2) ∨
      map_endpoints_to_basis p1 p2 b = (p2, p1) := by
  cases b with
  | none => exact Or.inl rfl
  | some bl =>
    rw [map_endpoints_to_basis]
    split_ifs <;> simp

theorem clip_discriminated (glOpt : Option Line3)
    (corners : XYZ × XYZ × XYZ × XYZ) (center : XYZ) (offs : Side → ℝ)
    (modes : Side → Mode) (tol min_len : ℝ) :
    (clip_endpoints glOpt corners center offs modes tol min_len =
        ExtentResult.notALine ↔ glOpt = none)
    ∧ ∀ gl, glOpt = some gl →
      ((clip_endpoints glOpt corners center offs modes tol min_len =
          ExtentResult.degenerate ↔ d3_len_of gl < tol)
      ∧ (clip_endpoints glOpt corners center offs modes tol min_len =
          ExtentResult.unsuitableInPlan ↔
            ¬ d3_len_of gl < tol ∧ v2_len_of gl < tol)
      ∧ (clip_endpoints glOpt corners center offs modes tol min_len =
          ExtentResult.noDoubleIntersection ↔
            ¬ d3_len_of gl < tol ∧ ¬ v2_len_of gl < tol ∧
              (uniqueHits gl corners).length < 2)
      ∧ (clip_endpoints glOpt corners center offs modes tol min_len =
          ExtentResult.tooShort →
            ¬ d3_len_of gl < tol ∧ ¬ v2_len_of gl < tol ∧
              2 ≤ (uniqueHits gl corners).length)
      ∧ ∀ q1 q2, clip_endpoints glOpt corners center offs modes tol min_len =
          ExtentResult.updated q1 q2 →
            ¬ d3_len_of gl < tol ∧ ¬ v2_len_of gl < tol ∧
              2 ≤ (uniqueHits gl corners).length ∧
              min_len ≤ XYZ.distanceTo q1 q2) := by
  cases glOpt with
  | none =>
    constructor
    · simp [clip_endpoints]
    · intro gl hgl
      exact absurd hgl (by simp)
  | some gl =>
    constructor
    · rw [clip_endpoints]
      by_cases h1 : d3_len_of gl < tol
      · rw [if_pos h1]
        simp
      rw [if_neg h1]
      by_cases h2 : v2_len_of gl < tol
      · rw [if_pos h2]
        simp
      rw [if_neg h2]
      by_cases h3 : (uniqueHits gl corners).length < 2
      · rw [if_pos h3]
        simp
      rw [if_neg h3]
      have hnotnil : uniqueHits gl corners ≠ [] := by
        intro hnil
        rw [hnil] at h3
        simp at h3
      rcases hh : (sortByT (uniqueHits gl corners)).head? with _ | hA
      · exact absurd (List.head?_eq_none_iff.mp hh) (sortByT_ne_nil hnotnil)
      rcases hl : (sortByT (uniqueHits gl corners)).getLast? with _ | hB
      · exact absurd (List.getLast?_eq_none_iff.mp hl) (sortByT_ne_nil hnotnil)
      simp only [hh, hl]
      split_ifs <;> simp
    · intro gl2 hgl
      have hgl2 : gl2 = gl := by
        injection hgl.symm
      subst hgl2
      rw [clip_endpoints]
      by_cases h1 : d3_len_of gl2 < tol
      · rw [if_pos h1]
        refine ⟨by simp [h1], by simp [h1], by simp [h1], by simp, ?_⟩
        intro q1 q2 h
        exact absurd h (by simp)
      · rw [if_neg h1]
        by_cases h2 : v2_len_of gl2 < tol
        · rw [if_pos h2]
          refine ⟨by simp [h1], by simp [h1, h2], by simp [h1, h2], by simp, ?_⟩
          intro q1 q2 h
          exact absurd h (by simp)
        · rw [if_neg h2]
          by_cases h3 : (uniqueHits gl2 corners).length < 2
          · rw [if_pos h3]
            refine ⟨by simp [h1], by simp [h2], by simp [h1, h2, h3], by simp, ?_⟩
            intro q1 q2 h
            exact absurd h (by simp)
          · rw [if_neg h3]
            have hnotnil : uniqueHits gl2 corners ≠ [] := by
              intro hnil
              rw [hnil] at h3
              simp at h3
            rcases hh : (sortByT (uniqueHits gl2 corners)).head? with _ | hA
            · exact absurd (List.head?_eq_none_iff.mp hh) (sortByT_ne_nil hnotnil)
            rcases hl : (sortByT (uniqueHits gl2 corners)).getLast? with _ | hB
            · exact absurd (List.getLast?_eq_none_iff.mp hl)
                (sortByT_ne_nil hnotnil)
            simp only [hh, hl]
            by_cases h4 : XYZ.distanceTo
                (choose_endpoint (v3_of gl2) center
                  (project_point_onto_line_3d hA.1 gl2.p0 (v3_of gl2)).1
                  (offs hA.2.2) (modes hA.2.2).isOutside)
                (choose_endpoint (v3_of gl2) center
                  (project_point_onto_line_3d hB.1 gl2.p0 (v3_of gl2)).1
                  (offs hB.2.2) (modes hB.2.2).isOutside) < min_len
            · rw [if_pos h4]
              refine ⟨by simp [h1], by simp [h2], by simp [h1, h2, h3], ?_, ?_⟩
              · intro _
                exact ⟨h1, h2, le_of_not_lt h3⟩
              · intro q1 q2 h
                exact absurd h (by simp)
            · rw [if_neg h4]
              refine ⟨by simp [h1], by simp [h2], by simp [h1, h2, h3], by simp, ?_⟩
              intro q1 q2 h
              injection h with hq1 hq2
              rw [← hq1, ← hq2]
              exact ⟨h1, h2, le_of_not_lt h3, le_of_not_lt h4⟩

theorem set_grid_eq_iff_clip_eq (glOpt : Option Line3)
    (corners : XYZ × XYZ × XYZ × XYZ) (center : XYZ) (offs : Side → ℝ)
    (modes : Side → Mode) (basis : Option Line3) (tol min_len : ℝ)
    (X : ExtentResult) (hX : ∀ p1 p2, X ≠ ExtentResult.updated p1 p2) :
    (set_grid_2d_extents_in_view glOpt corners center offs modes basis tol
        min_len = X ↔
      clip_endpoints glOpt corners center offs modes tol min_len = X) := by
  rw [set_grid_2d_extents_in_view]
  cases h : clip_endpoints glOpt corners center offs modes tol min_len with
  | updated p1 p2 =>
    exact iff_of_false (fun hc => hX _ _ hc.symm) (fun hc => hX _ _ hc.symm)
  | notALine => simp
  | degenerate => simp
  | unsuitableInPlan => simp
  | noDoubleIntersection => simp
  | tooShort => simp

theorem set_grid_updated_iff (glOpt : Option Line3)
    (corners : XYZ × XYZ × XYZ × XYZ) (center : XYZ) (offs : Side → ℝ)
    (modes : Side → Mode) (basis : Option Line3) (tol min_len : ℝ)
    (q1 q2 : XYZ) :
    set_grid_2d_extents_in_view glOpt corners center offs modes basis tol
        min_len = ExtentResult.updated q1 q2 ↔
      ∃ p1 p2, clip_endpoints glOpt corners center offs modes tol min_len =
        ExtentResult.updated p1 p2 ∧
        map_endpoints_to_basis p1 p2 basis = (q1, q2) := by
  rw [set_grid_2d_extents_in_view]
  cases h : clip_endpoints glOpt corners center offs modes tol min_len with
  | updated p1 p2 =>
    constructor
    · intro hc
      injection hc with hc1 hc2
      exact ⟨p1, p2, rfl, Prod.ext_iff.mpr ⟨hc1, hc2⟩⟩
    · rintro ⟨p1', p2', hp, hmap⟩
      injection hp with e1 e2
      subst e1
      subst e2
      show ExtentResult.updated (map_endpoints_to_basis p1 p2 basis).1
        (map_endpoints_to_basis p1 p2 basis).2 = ExtentResult.updated q1 q2
      rw [hmap]
  | notALine => simp
  | degenerate => simp
  | unsuitableInPlan => simp
  | noDoubleIntersection => simp
  | tooShort => simp

/-- C4: recompute_extent always returns a discriminated success-or-failure
result and never a partial one-sided result: a non-line curve yields
notALine; a near-zero 3D direction yields degenerate; a near-zero planar
projection yields unsuitableInPlan; fewer than two distinct deduplicated edge
intersections yield noDoubleIntersection; a new endpoint separation below the
minimum length yields tooShort; and only otherwise is a curve with exactly two
clipped endpoints produced, whose separation is at least the minimum length.
Each equivalence is stated against the corresponding guard of the source. -/
theorem recompute_extent_discriminated (glOpt : Option Line3)
    (corners : XYZ × XYZ × XYZ × XYZ) (center : XYZ) (offs : Side → ℝ)
    (modes : Side → Mode) (basis : Option Line3) (tol min_len : ℝ) :
    (set_grid_2d_extents_in_view glOpt corners center offs modes basis tol
        min_len = ExtentResult.notALine ↔ glOpt = none)
    ∧ ∀ gl, glOpt = some gl →
      ((set_grid_2d_extents_in_view glOpt corners center offs modes basis tol
          min_len = ExtentResult.degenerate ↔ d3_len_of gl < tol)
      ∧ (set_grid_2d_extents_in_view glOpt corners center offs modes basis tol
          min_len = ExtentResult.unsuitableInPlan ↔
            ¬ d3_len_of gl < tol ∧ v2_len_of gl < tol)
      ∧ (set_grid_2d_extents_in_view glOpt corners center offs modes basis tol
          min_len = ExtentResult.noDoubleIntersection ↔
            ¬ d3_len_of gl < tol ∧ ¬ v2_len_of gl < tol ∧
              (uniqueHits gl corners).length < 2)
      ∧ (set_grid_2d_extents_in_view glOpt corners center offs modes basis tol
          min_len = ExtentResult.tooShort →
            ¬ d3_len_of gl < tol ∧ ¬ v2_len_of gl < tol ∧
              2 ≤ (uniqueHits gl corners).length)
      ∧ ∀ q1 q2, set_grid_2d_extents_in_view glOpt corners center offs modes
          basis tol min_len = ExtentResult.updated q1 q2 →
            ¬ d3_len_of gl < tol ∧ ¬ v2_len_of gl < tol ∧
              2 ≤ (uniqueHits gl corners).length ∧
              min_len ≤ XYZ.distanceTo q1 q2) := by
  obtain ⟨hna, hrest⟩ :=
    clip_discriminated glOpt corners center offs modes tol min_len
  refine ⟨?_, ?_⟩
  · rw [set_grid_eq_iff_clip_eq glOpt corners center offs modes basis tol
      min_len ExtentResult.notALine (by intro p1 p2; simp)]
    exact hna
  · intro gl hgl
    obtain ⟨hdeg, hunsuit, hnd, hts, hupd⟩ := hrest gl hgl
    refine ⟨?_, ?_, ?_, ?_, ?_⟩
    · rw [set_grid_eq_iff_clip_eq glOpt corners center offs modes basis tol
        min_len ExtentResult.degenerate (by intro p1 p2; simp)]
      exact hdeg
    · rw [set_grid_eq_iff_clip_eq glOpt corners center offs modes basis tol
        min_len ExtentResult.unsuitableInPlan (by intro p1 p2; simp)]
      exact hunsuit
    · rw [set_grid_eq_iff_clip_eq glOpt corners center offs modes basis tol
        min_len ExtentResult.noDoubleIntersection (by intro p1 p2; simp)]
      exact hnd
    · intro h
      exact hts ((set_grid_eq_iff_clip_eq glOpt corners center offs modes basis
        tol min_len ExtentResult.tooShort (by intro p1 p2; simp)).mp h)
    · intro q1 q2 h
      obtain ⟨p1, p2, hclip, hmap⟩ := (set_grid_updated_iff glOpt corners
        center offs modes basis tol min_len q1 q2).mp h
      obtain ⟨k1, k2, k3, k4⟩ := hupd p1 p2 hclip
      rcases map_endpoints_to_basis_cases p1 p2 basis with hc | hc
      · rw [hc] at hmap
        injection hmap with e1 e2
        subst e1
        subst e2
        exact ⟨k1, k2, k3, k4⟩
      · rw [hc] at hmap
        injection hmap with e1 e2
        subst e1
        subst e2
        rw [XYZ.distanceTo_comm] at k4
        exact ⟨k1, k2, k3, k4⟩

/-- Witness for C4: on the concrete clipping scenario the success branch is
taken and the produced endpoints are at least the minimum length apart. -/
theorem recompute_extent_discriminated_witness :
    (1 : ℝ) / 10000 ≤ XYZ.distanceTo ⟨1, 0, 0⟩ ⟨9, 0, 0⟩ := by
  have h := (recompute_extent_discriminated (some scLine) scCorners scCenter
    (fun _ => 1) (fun _ => Mode.outside) none (1 / 10000000)
    (1 / 10000)).2 scLine rfl
  refine (h.2.2.2.2 ⟨1, 0, 0⟩ ⟨9, 0, 0⟩ ?_).2.2.2
  rw [set_grid_2d_extents_in_view, sc_clip_one]
  rfl

theorem choose_endpoint_zero (v c p : XYZ) (b : Bool) :
    choose_endpoint v c p 0 b = p := by
  rw [choose_endpoint]
  split_ifs <;> simp

theorem project_fst_eq (p o u : XYZ) :
    (project_point_onto_line_3d p o u).1 =
      ⟨o.x + (project_point_onto_line_3d p o u).2 * u.x,
       o.y + (project_point_onto_line_3d p o u).2 * u.y,
       o.z + (project_point_onto_line_3d p o u).2 * u.z⟩ := rfl

theorem dist2_xy_on_line_pos (o u : XYZ) (t1 t2 : ℝ)
    (hu : 0 < u.x * u.x + u.y * u.y) (hne : t1 ≠ t2) :
    0 < dist2_xy ⟨o.x + t1 * u.x, o.y + t1 * u.y, o.z + t1 * u.z⟩
      ⟨o.x + t2 * u.x, o.y + t2 * u.y, o.z + t2 * u.z⟩ := by
  rw [dist2_xy]
  simp only
  have h : (o.x + t1 * u.x - (o.x + t2 * u.x)) *
        (o.x + t1 * u.x - (o.x + t2 * u.x)) +
      (o.y + t1 * u.y - (o.y + t2 * u.y)) *
        (o.y + t1 * u.y - (o.y + t2 * u.y)) =
      (t1 - t2) * (t1 - t2) * (u.x * u.x + u.y * u.y) := by
    ring
  rw [h]
  exact mul_pos (mul_self_pos.mpr (sub_ne_zero.mpr hne)) hu

theorem points_on_line_eq (o u : XYZ) (t : ℝ) :
    XYZ.distanceTo ⟨o.x + t * u.x, o.y + t * u.y, o.z + t * u.z⟩
      ⟨o.x + t * u.x, o.y + t * u.y, o.z + t * u.z⟩ = 0 :=
  XYZ.distanceTo_self _

theorem clip_zero_offset_sep (glOpt : Option Line3)
    (corners : XYZ × XYZ × XYZ × XYZ) (center : XYZ) (modes : Side → Mode)
    (tol min_len : ℝ) (pA pB : XYZ) (htol : 0 < tol) (hmin : 0 < min_len)
    (h : clip_endpoints glOpt corners center (fun _ => 0) modes tol min_len =
      ExtentResult.updated pA pB) :
    0 < dist2_xy pA pB := by
  cases glOpt with
  | none => simp [clip_endpoints] at h
  | some gl =>
    rw [clip_endpoints] at h
    by_cases h1 : d3_len_of gl < tol
    · rw [if_pos h1] at h
      exact absurd h (by simp)
    rw [if_neg h1] at h
    by_cases h2 : v2_len_of gl < tol
    · rw [if_pos h2] at h
      exact absurd h (by simp)
    rw [if_neg h2] at h
    by_cases h3 : (uniqueHits gl corners).length < 2
    · rw [if_pos h3] at h
      exact absurd h (by simp)
    rw [if_neg h3] at h
    have hnotnil : uniqueHits gl corners ≠ [] := by
      intro hnil
      rw [hnil] at h3
      simp at h3
    rcases hh : (sortByT (uniqueHits gl corners)).head? with _ | hA
    · exact absurd (List.head?_eq_none_iff.mp hh) (sortByT_ne_nil hnotnil)
    rcases hl : (sortByT (uniqueHits gl corners)).getLast? with _ | hB
    · exact absurd (List.getLast?_eq_none_iff.mp hl) (sortByT_ne_nil hnotnil)
    simp only [hh, hl, choose_endpoint_zero] at h
    by_cases h4 : XYZ.distanceTo
        (project_point_onto_line_3d hA.1 gl.p0 (v3_of gl)).1
        (project_point_onto_line_3d hB.1 gl.p0 (v3_of gl)).1 < min_len
    · rw [if_pos h4] at h
      exact absurd h (by simp)
    rw [if_neg h4] at h
    injection h with e1 e2
    subst e1
    subst e2
    have hu : 0 < (v3_of gl).x * (v3_of gl).x + (v3_of gl).y * (v3_of gl).y := by
      have hs : 0 < v2_len_of gl := lt_of_lt_of_le htol (le_of_not_lt h2)
      rw [v2_len_of] at hs
      exact Real.sqrt_pos.mp hs
    have hne : (project_point_onto_line_3d hA.1 gl.p0 (v3_of gl)).2 ≠
        (project_point_onto_line_3d hB.1 gl.p0 (v3_of gl)).2 := by
      intro heq
      apply h4
      rw [project_fst_eq hA.1 gl.p0 (v3_of gl),
        project_fst_eq hB.1 gl.p0 (v3_of gl), heq, points_on_line_eq]
      exact hmin
    rw [project_fst_eq hA.1 gl.p0 (v3_of gl),
      project_fst_eq hB.1 gl.p0 (v3_of gl)]
    exact dist2_xy_on_line_pos gl.p0 (v3_of gl) _ _ hu hne

/-- C9: under a no-op offset (offset 0 and mode outside on all four sides) the
endpoint-identity remap is idempotent: a successful recompute returning
endpoints p1 and p2 returns exactly those endpoints again when re-run with the
reference 2D curve set to the line from p1 to p2; and for every pair of
points and basis line the keep-vs-swap remap returns one of the two pairings
and realizes the minimum of the two total squared planar distances. -/
theorem noop_offset_remap_idempotent (glOpt : Option Line3)
    (corners : XYZ × XYZ × XYZ × XYZ) (center : XYZ) (basis : Option Line3)
    (tol min_len : ℝ) (p1 p2 : XYZ) (htol : 0 < tol) (hmin : 0 < min_len)
    (hrun : set_grid_2d_extents_in_view glOpt corners center (fun _ => 0)
      (fun _ => Mode.outside) basis tol min_len =
        ExtentResult.updated p1 p2) :
    set_grid_2d_extents_in_view glOpt corners center (fun _ => 0)
      (fun _ => Mode.outside) (some ⟨p1, p2⟩) tol min_len =
        ExtentResult.updated p1 p2
    ∧ ∀ q1 q2 : XYZ, ∀ bl : Line3,
      (map_endpoints_to_basis q1 q2 (some bl) = (q1, q2) ∨
        map_endpoints_to_basis q1 q2 (some bl) = (q2, q1))
      ∧ dist2_xy (map_endpoints_to_basis q1 q2 (some bl)).1 bl.p0 +
          dist2_xy (map_endpoints_to_basis q1 q2 (some bl)).2 bl.p1 =
        min (dist2_xy q1 bl.p0 + dist2_xy q2 bl.p1)
          (dist2_xy q1 bl.p1 + dist2_xy q2 bl.p0) := by
  constructor
  · obtain ⟨pA, pB, hclip, hmap⟩ := (set_grid_updated_iff glOpt corners center
      (fun _ => 0) (fun _ => Mode.outside) basis tol min_len p1 p2).mp hrun
    have hsep : 0 < dist2_xy pA pB :=
      clip_zero_offset_sep glOpt corners center (fun _ => Mode.outside) tol
        min_len pA pB htol hmin hclip
    rw [set_grid_2d_extents_in_view, hclip]
    have hgoal : map_endpoints_to_basis pA pB (some ⟨p1, p2⟩) = (p1, p2) := by
      rcases map_endpoints_to_basis_cases pA pB basis with hc | hc
      · rw [hc] at hmap
        injection hmap with e1 e2
        subst e1
        subst e2
        rw [map_endpoints_to_basis]
        rw [if_neg]
        simp only [dist2_xy_self]
        rw [not_lt]
        have hn := add_nonneg (dist2_xy_nonneg pA pB) (dist2_xy_nonneg pB pA)
        linarith
      · rw [hc] at hmap
        injection hmap with e1 e2
        subst e1
        subst e2
        rw [map_endpoints_to_basis]
        rw [if_pos]
        simp only [dist2_xy_self]
        rw [show (0 : ℝ) + 0 = 0 by norm_num]
        exact add_pos_of_pos_of_nonneg hsep (dist2_xy_nonneg _ _)
    show ExtentResult.updated (map_endpoints_to_basis pA pB (some ⟨p1, p2⟩)).1
      (map_endpoints_to_basis pA pB (some ⟨p1, p2⟩)).2 =
      ExtentResult.updated p1 p2
    rw [hgoal]
  · intro q1 q2 bl
    rw [map_endpoints_to_basis]
    split_ifs with hsw
    · constructor
      · exact Or.inr rfl
      · simp only
        rw [min_eq_right hsw.le]
        ring
    · constructor
      · exact Or.inl rfl
      · simp only
        rw [min_eq_left (not_lt.mp hsw)]

theorem sc_clip_zero :
    clip_endpoints (some scLine) scCorners scCenter (fun _ => 0)
      (fun _ => Mode.outside) (1 / 10000000) (1 / 10000) =
      ExtentResult.updated ⟨2, 0, 0⟩ ⟨8, 0, 0⟩ := by
  rw [clip_endpoints]
  rw [if_neg (by rw [sc_d3_len]; norm_num)]
  rw [if_neg (by rw [sc_v2_len]; norm_num)]
  simp only [sc_unique, sc_sorted, sc_v3, scCenter]
  norm_num [project_point_onto_line_3d, choose_endpoint, Mode.isOutside,
    dist2_xy, XYZ.mk.injEq]
  simp only [scLine]
  norm_num [sc_dist_28, XYZ.mk.injEq]

/-- Witness for C9: on the clipping scenario with offset 0 and mode outside,
the first run clips the line to (2, 0, 0) and (8, 0, 0), and re-running with
the reference curve set to that result returns the same endpoints. -/
theorem noop_offset_remap_idempotent_witness :
    (0 : ℝ) < 1 / 10000000 ∧ (0 : ℝ) < 1 / 10000 ∧
    set_grid_2d_extents_in_view (some scLine) scCorners scCenter (fun _ => 0)
      (fun _ => Mode.outside) none (1 / 10000000) (1 / 10000) =
        ExtentResult.updated ⟨2, 0, 0⟩ ⟨8, 0, 0⟩ ∧
    set_grid_2d_extents_in_view (some scLine) scCorners scCenter (fun _ => 0)
      (fun _ => Mode.outside) (some ⟨⟨2, 0, 0⟩, ⟨8, 0, 0⟩⟩) (1 / 10000000)
      (1 / 10000) = ExtentResult.updated ⟨2, 0, 0⟩ ⟨8, 0, 0⟩ := by
  have hrun : set_grid_2d_extents_in_view (some scLine) scCorners scCenter
      (fun _ => 0) (fun _ => Mode.outside) none (1 / 10000000) (1 / 10000) =
        ExtentResult.updated ⟨2, 0, 0⟩ ⟨8, 0, 0⟩ := by
    rw [set_grid_2d_extents_in_view, sc_clip_zero]
    rfl
  exact ⟨by norm_num, by norm_num, hrun,
    (noop_offset_remap_idempotent (some scLine) scCorners scCenter none
      (1 / 10000000) (1 / 10000) ⟨2, 0, 0⟩ ⟨8, 0, 0⟩ (by norm_num)
      (by norm_num) hrun).1⟩

/-- Planar basis of a view, mirroring the Origin, RightDirection and
UpDirection properties read by the alignment scripts. -/
structure ViewBasis where
  origin : XYZ
  rightDir : XYZ
  upDir : XYZ

/-- Projection of a model point to the view 2D basis, from to_view_xy. -/
def to_view_xy (view : ViewBasis) (p : XYZ) : ℝ × ℝ :=
  ((p - view.origin).dotProduct view.rightDir,
   (p - view.origin).dotProduct view.upDir)

/-- Lift of view-plane coordinates back to model space, from from_view_xy. -/
def from_view_xy (view : ViewBasis) (x y : ℝ) : XYZ :=
  view.origin + view.rightDir.multiply x + view.upDir.multiply y

/-- Host curve as seen by curve_points_in_view_xy: each capability that the
script calls inside a try block is an Option (none models a raised
exception), and Evaluate may fail at some parameters only. -/
structure Curve where
  tessellate : Option (List XYZ)
  endParams : Option (ℝ × ℝ)
  evaluate : ℝ → Option XYZ
  endPoints : Option (XYZ × XYZ)

/-- Parametric sampling loop of curve_points_in_view_xy: evaluate the curve at
the indexed parameters in order, projecting each point; a failing evaluation
aborts the loop, keeping the points already appended (the source list pts is
shared with the following fallback), and reports failure. -/
def runEval (c : Curve) (view : ViewBasis) (t0 t1 : ℝ) (n : ℕ) :
    List ℕ → List (ℝ × ℝ) × Bool
  | [] => ([], true)
  | i :: rest =>
    match c.evaluate (t0 + (t1 - t0) * (i : ℝ) / ((n : ℝ) - 1)) with
    | none => ([], false)
    | some p =>
      let r := runEval c view t0 t1 n rest
      (to_view_xy view p :: r.1, r.2)

/-- Endpoint fallback of curve_points_in_view_xy: append the projections of
the two curve endpoints to the points accumulated so far; a raising
GetEndPoint appends nothing. -/
def tier3_endpoints (view : ViewBasis) (c : Curve) (acc : List (ℝ × ℝ)) :
    List (ℝ × ℝ) :=
  match c.endPoints with
  | some pq => acc ++ [to_view_xy view pq.1, to_view_xy view pq.2]
  | none => acc

/-- Parametric-sampling tier followed by the endpoint fallback: read the end
parameters, clamp the sample count to at least 2, run the evaluation loop and
on failure fall through to the endpoints, keeping partial samples. -/
def tier23 (view : ViewBasis) (c : Curve) (samples : ℕ) : List (ℝ × ℝ) :=
  match c.endParams with
  | some tt =>
    let n := max samples 2
    let r := runEval c view tt.1 tt.2 n (List.range n)
    if r.2 then r.1 else tier3_endpoints view c r.1
  | none => tier3_endpoints view c []

/-- Tiered curve sampler from curve_points_in_view_xy: tessellation when it
yields at least two points, else parametric sampling, else the endpoints. -/
def curve_points_in_view_xy (view : ViewBasis) (c : Curve) (samples : ℕ) :
    List (ℝ × ℝ) :=
  match c.tessellate with
  | some tess =>
    if 2 ≤ tess.length then tess.map (to_view_xy view)
    else tier23 view c samples
  | none => tier23 view c samples

/-- Axis orientation classes of classify_grid_orientation. -/
inductive Orientation where
  | vertical
  | horizontal
deriving DecidableEq

/-- Classification core of classify_grid_orientation, applied to the sampled
view-plane points: coordinate means, unit direction between first and last
point, and the axis-alignment comparison against the tolerance. -/
def classify_pts (pts : List (ℝ × ℝ)) (axis_tol : ℝ) :
    Option Orientation × Option ℝ × Option ℝ :=
  match pts with
  | [] => (none, none, none)
  | p :: rest =>
    let xs := (p :: rest).map Prod.fst
    let ys := (p :: rest).map Prod.snd
    let x_avg := xs.sum / (xs.length : ℝ)
    let y_avg := ys.sum / (ys.length : ℝ)
    match rest with
    | [] => (none, some x_avg, some y_avg)
    | q :: rest2 =>
      let pL := (p :: q :: rest2).getLast (List.cons_ne_nil _ _)
      let dx := pL.1 - p.1
      let dy := pL.2 - p.2
      let mag := Real.sqrt (dx ^ 2 + dy ^ 2)
      if mag < 1 / 1000000000 then (none, some x_avg, some y_avg)
      else
        if |dy / mag| > |dx / mag| ∧ |dy / mag| - |dx / mag| > axis_tol then
          (some Orientation.vertical, some x_avg, some y_avg)
        else if |dx / mag| > |dy / mag| ∧ |dx / mag| - |dy / mag| > axis_tol
          then (some Orientation.horizontal, some x_avg, some y_avg)
        else (none, some x_avg, some y_avg)

/-- Orientation classification of a grid curve, from
classify_grid_orientation: sample the curve in the view basis (default sample
count 11) and classify the points. -/
def classify_grid_orientation (view : ViewBasis) (c : Curve)
    (axis_tol : ℝ) : Option Orientation × Option ℝ × Option ℝ :=
  classify_pts (curve_points_in_view_xy view c 11) axis_tol

/-- First minimal element under a real key, mirroring the Python min with a
key function: iterate in order and replace the current best only on a
strictly smaller key, so the first-encountered candidate wins exact ties. -/
def minByFirst {α : Type} (key : α → ℝ) : α → List α → α
  | x, [] => x
  | x, y :: ys => minByFirst key (if key y < key x then y else x) ys

/-- Vertical candidate list of find_bottom_left_grid_intersection: the mean
coordinates of the grids classified vertical, in input order.  A vertical
classification always carries both means, so the wildcard rows are
unreachable. -/
def vertical_candidates (view : ViewBasis) (grids : List Curve)
    (axis_tol : ℝ) : List (ℝ × ℝ) :=
  grids.foldr (fun g acc =>
    match classify_grid_orientation view g axis_tol with
    | (some Orientation.vertical, some xv, some yv) => (xv, yv) :: acc
    | _ => acc) []

/-- Horizontal candidate list of find_bottom_left_grid_intersection. -/
def horizontal_candidates (view : ViewBasis) (grids : List Curve)
    (axis_tol : ℝ) : List (ℝ × ℝ) :=
  grids.foldr (fun g acc =>
    match classify_grid_orientation view g axis_tol with
    | (some Orientation.horizontal, some xv, some yv) => (xv, yv) :: acc
    | _ => acc) []

/-- Grid intersection locator from find_bottom_left_grid_intersection: fail
on an empty grid list or an empty candidate list, otherwise lift the mean x
of the left-most vertical candidate and the mean y of the bottom-most
horizontal candidate back to model space through the view basis. -/
def find_bottom_left_grid_intersection (view : ViewBasis)
    (grids : List Curve) (axis_tol : ℝ) : Option XYZ :=
  match grids with
  | [] => none
  | _ :: _ =>
    match vertical_candidates view grids axis_tol,
        horizontal_candidates view grids axis_tol with
    | v :: vs, h :: hs =>
      some (from_view_xy view (minByFirst (fun t => t.1) v vs).1
        (minByFirst (fun t => t.2) h hs).2)
    | _, _ => none

theorem classify_pts_eval (p q : ℝ × ℝ) (rest : List (ℝ × ℝ)) (tol : ℝ)
    (dx dy mag xa ya : ℝ)
    (hdx : dx = ((p :: q :: rest).getLast (List.cons_ne_nil _ _)).1 - p.1)
    (hdy : dy = ((p :: q :: rest).getLast (List.cons_ne_nil _ _)).2 - p.2)
    (hmag : mag = Real.sqrt (dx ^ 2 + dy ^ 2))
    (hxa : xa = ((p :: q :: rest).map Prod.fst).sum /
      (((p :: q :: rest).map Prod.fst).length : ℝ))
    (hya : ya = ((p :: q :: rest).map Prod.snd).sum /
      (((p :: q :: rest).map Prod.snd).length : ℝ)) :
    classify_pts (p :: q :: rest) tol =
      if mag < 1 / 1000000000 then (none, some xa, some ya)
      else if |dy / mag| > |dx / mag| ∧ |dy / mag| - |dx / mag| > tol then
        (some Orientation.vertical, some xa, some ya)
      else if |dx / mag| > |dy / mag| ∧ |dx / mag| - |dy / mag| > tol then
        (some Orientation.horizontal, some xa, some ya)
      else (none, some xa, some ya) := by
  subst hdx
  subst hdy
  subst hmag
  subst hxa
  subst hya
  rfl

/-- C3: classify forms the unit direction between the first and last sampled
point, compares the absolute axis components, and returns vertical exactly
when the y alignment exceeds the x alignment by more than the tolerance,
horizontal exactly in the symmetric case, and no class otherwise — the result
is ternary and never both classes — while a direction of magnitude below 1e-9
yields no class with the coordinate means still returned. -/
theorem classify_grid_orientation_ternary (view : ViewBasis) (c : Curve)
    (tol dx dy mag xa ya : ℝ) (p q : ℝ × ℝ) (rest : List (ℝ × ℝ))
    (hpts : curve_points_in_view_xy view c 11 = p :: q :: rest)
    (hdx : dx = ((p :: q :: rest).getLast (List.cons_ne_nil _ _)).1 - p.1)
    (hdy : dy = ((p :: q :: rest).getLast (List.cons_ne_nil _ _)).2 - p.2)
    (hmag : mag = Real.sqrt (dx ^ 2 + dy ^ 2))
    (hxa : xa = ((p :: q :: rest).map Prod.fst).sum /
      (((p :: q :: rest).map Prod.fst).length : ℝ))
    (hya : ya = ((p :: q :: rest).map Prod.snd).sum /
      (((p :: q :: rest).map Prod.snd).length : ℝ)) :
    (classify_grid_orientation view c tol =
        classify_pts (curve_points_in_view_xy view c 11) tol)
    ∧ (mag < 1 / 1000000000 →
        classify_grid_orientation view c tol = (none, some xa, some ya))
    ∧ (¬ mag < 1 / 1000000000 →
        ((classify_grid_orientation view c tol).1 = some Orientation.vertical
          ↔ |dy / mag| > |dx / mag| ∧ |dy / mag| - |dx / mag| > tol)
        ∧ ((classify_grid_orientation view c tol).1 =
            some Orientation.horizontal
          ↔ |dx / mag| > |dy / mag| ∧ |dx / mag| - |dy / mag| > tol)
        ∧ ((classify_grid_orientation view c tol).1 = none
          ↔ ¬(|dy / mag| > |dx / mag| ∧ |dy / mag| - |dx / mag| > tol)
            ∧ ¬(|dx / mag| > |dy / mag| ∧ |dx / mag| - |dy / mag| > tol))
        ∧ (classify_grid_orientation view c tol).2 = (some xa, some ya))
    ∧ ¬((classify_grid_orientation view c tol).1 = some Orientation.vertical
        ∧ (classify_grid_orientation view c tol).1 =
            some Orientation.horizontal) := by
  have he : classify_grid_orientation view c tol =
      if mag < 1 / 1000000000 then (none, some xa, some ya)
      else if |dy / mag| > |dx / mag| ∧ |dy / mag| - |dx / mag| > tol then
        (some Orientation.vertical, some xa, some ya)
      else if |dx / mag| > |dy / mag| ∧ |dx / mag| - |dy / mag| > tol then
        (some Orientation.horizontal, some xa, some ya)
      else (none, some xa, some ya) := by
    rw [classify_grid_orientation, hpts,
      classify_pts_eval p q rest tol dx dy mag xa ya hdx hdy hmag hxa hya]
  refine ⟨by rw [classify_grid_orientation], ?_, ?_, ?_⟩
  · intro h
    rw [he, if_pos h]
  · intro h
    rw [he, if_neg h]
    by_cases hv : |dy / mag| > |dx / mag| ∧ |dy / mag| - |dx / mag| > tol
    · rw [if_pos hv]
      refine ⟨by simp [hv], ?_, ?_, rfl⟩
      · exact iff_of_false (by simp) (fun hh => absurd hh.1 (lt_asymm hv.1))
      · exact iff_of_false (by simp) (fun hn => hn.1 hv)
    · rw [if_neg hv]
      by_cases hh2 : |dx / mag| > |dy / mag| ∧ |dx / mag| - |dy / mag| > tol
      · rw [if_pos hh2]
        refine ⟨iff_of_false (by simp) hv, by simp [hh2], ?_, rfl⟩
        exact iff_of_false (by simp) (fun hn => hn.2 hh2)
      · rw [if_neg hh2]
        exact ⟨iff_of_false (by simp) hv, iff_of_false (by simp) hh2,
          iff_of_true rfl ⟨hv, hh2⟩, rfl⟩
  · rintro ⟨h1, h2⟩
    rw [h1] at h2
    simp at h2

/-- View basis at the model origin with the standard axes. -/
def stdView : ViewBasis := ⟨⟨0, 0, 0⟩, ⟨1, 0, 0⟩, ⟨0, 1, 0⟩⟩

/-- Concrete classifier input: a curve that tessellates to the two model
points (0, 0, 0) and (3, 4, 0). -/
def c3Curve : Curve := ⟨some [⟨0, 0, 0⟩, ⟨3, 4, 0⟩], none, fun _ => none, none⟩

theorem c3Curve_points :
    curve_points_in_view_xy stdView c3Curve 11 = [(0, 0), (3, 4)] := by
  rw [curve_points_in_view_xy]
  norm_num [c3Curve, stdView, to_view_xy, XYZ.dotProduct, XYZ.sub_x,
    XYZ.sub_y, XYZ.sub_z, Prod.mk.injEq]

/-- Witness for C3: the sampled points (0, 0) and (3, 4) have unit direction
(3/5, 4/5); at tolerance 1/10 the y alignment wins by 1/5, so the classifier
returns vertical. -/
theorem classify_grid_orientation_ternary_witness :
    (classify_grid_orientation stdView c3Curve (1 / 10)).1 =
      some Orientation.vertical := by
  have h5 : (5 : ℝ) = Real.sqrt ((3 : ℝ) ^ 2 + (4 : ℝ) ^ 2) := by
    rw [show (3 : ℝ) ^ 2 + (4 : ℝ) ^ 2 = 25 by norm_num]
    exact (sqrt_eq_of_mul_self (by norm_num) (by norm_num)).symm
  have h := classify_grid_orientation_ternary stdView c3Curve (1 / 10) 3 4 5
    (3 / 2) 2 (0, 0) (3, 4) [] c3Curve_points (by norm_num) (by norm_num) h5
    (by norm_num) (by norm_num)
  refine ((h.2.2.1 (by norm_num)).1).mpr ?_
  rw [show |(4 : ℝ) / 5| = 4 / 5 from abs_of_pos (by norm_num),
    show |(3 : ℝ) / 5| = 3 / 5 from abs_of_pos (by norm_num)]
  norm_num

theorem ite_chain_mono (mag A B tol1 tol2 xa ya : ℝ) (hle : tol1 ≤ tol2)
    (o : Orientation)
    (h : (if mag < 1 / 1000000000 then
            ((none : Option Orientation), some xa, some ya)
          else if A > B ∧ A - B > tol2 then
            (some Orientation.vertical, some xa, some ya)
          else if B > A ∧ B - A > tol2 then
            (some Orientation.horizontal, some xa, some ya)
          else (none, some xa, some ya)).1 = some o) :
    (if mag < 1 / 1000000000 then
        ((none : Option Orientation), some xa, some ya)
      else if A > B ∧ A - B > tol1 then
        (some Orientation.vertical, some xa, some ya)
      else if B > A ∧ B - A > tol1 then
        (some Orientation.horizontal, some xa, some ya)
      else (none, some xa, some ya)).1 = some o := by
  by_cases hc0 : mag < 1 / 1000000000
  · rw [if_pos hc0] at h
    simp at h
  rw [if_neg hc0] at h ⊢
  by_cases hc2 : A > B ∧ A - B > tol2
  · rw [if_pos hc2] at h
    rw [if_pos ⟨hc2.1, lt_of_le_of_lt hle hc2.2⟩]
    exact h
  rw [if_neg hc2] at h
  by_cases hc3 : B > A ∧ B - A > tol2
  · rw [if_pos hc3] at h
    rw [if_neg (fun hx => absurd hx.1 (lt_asymm hc3.1))]
    rw [if_pos ⟨hc3.1, lt_of_le_of_lt hle hc3.2⟩]
    exact h
  rw [if_neg hc3] at h
  simp at h

/-- C8: orientation classification is tolerance-monotonic: for a fixed point
list, a class obtained at some tolerance is also obtained at every smaller
tolerance, and a point list unclassified at some tolerance stays unclassified
at every larger tolerance — so increasing the tolerance can only move a
result from a class to none, never the reverse and never between classes. -/
theorem classify_tolerance_monotone (pts : List (ℝ × ℝ)) (tol1 tol2 : ℝ)
    (hle : tol1 ≤ tol2) :
    (∀ o : Orientation, (classify_pts pts tol2).1 = some o →
      (classify_pts pts tol1).1 = some o)
    ∧ ((classify_pts pts tol1).1 = none →
      (classify_pts pts tol2).1 = none) := by
  have hmain : ∀ o : Orientation, (classify_pts pts tol2).1 = some o →
      (classify_pts pts tol1).1 = some o := by
    intro o h
    rcases pts with _ | ⟨p, _ | ⟨q, rest⟩⟩
    · simp [classify_pts] at h
    · simp [classify_pts] at h
    · rw [classify_pts_eval p q rest tol2 _ _ _ _ _ rfl rfl rfl rfl rfl] at h
      rw [classify_pts_eval p q rest tol1 _ _ _ _ _ rfl rfl rfl rfl rfl]
      exact ite_chain_mono _ _ _ tol1 tol2 _ _ hle o h
  refine ⟨hmain, ?_⟩
  intro hnone
  rcases h2 : (classify_pts pts tol2).1 with _ | o
  · rfl
  · rw [hmain o h2] at hnone
    simp at hnone

theorem c8_eval_15 :
    (classify_pts [((0 : ℝ), (0 : ℝ)), ((0 : ℝ), (1 : ℝ))] (15 / 100)).1 =
      some Orientation.vertical := by
  rw [classify_pts_eval (0, 0) (0, 1) [] (15 / 100) 0 1 1 0 (1 / 2)
    (by simp [List.getLast]) (by simp [List.getLast])
    (by rw [show (0 : ℝ) ^ 2 + 1 ^ 2 = 1 by norm_num]
        exact Real.sqrt_one.symm)
    (by norm_num) (by norm_num)]
  rw [if_neg (by norm_num)]
  rw [if_pos (by norm_num)]

/-- Witness for C8: the vertical point list from (0, 0) to (0, 1) classified
vertical at tolerance 15/100 is still vertical at the smaller tolerance
1/10. -/
theorem classify_tolerance_monotone_witness :
    (1 : ℝ) / 10 ≤ 15 / 100 ∧
    (classify_pts [((0 : ℝ), (0 : ℝ)), ((0 : ℝ), (1 : ℝ))] (1 / 10)).1 =
      some Orientation.vertical := by
  refine ⟨by norm_num, ?_⟩
  exact (classify_tolerance_monotone [((0 : ℝ), (0 : ℝ)), ((0 : ℝ), (1 : ℝ))]
    (1 / 10) (15 / 100) (by norm_num)).1 Orientation.vertical c8_eval_15

/-- C7 (amended): the sampler follows the strict three-tier fallback order —
tessellation whenever it yields at least two points (each projected into the
basis); otherwise parametric evaluation at the sample count clamped to at
least 2, returned when every evaluation succeeds; otherwise the two endpoint
projections appended after any partial parametric samples (so a mid-loop
evaluation failure leaves its partial samples in front, and when the
endpoints also fail the partial samples alone are returned, empty only when
nothing was sampled); and a caller classifying an empty sample sequence gets
the unclassified triple. -/
theorem curve_sampler_tiered (view : ViewBasis) (c : Curve) (samples : ℕ) :
    (∀ tess, c.tessellate = some tess → 2 ≤ tess.length →
      curve_points_in_view_xy view c samples = tess.map (to_view_xy view))
    ∧ ((c.tessellate = none ∨ ∃ l, c.tessellate = some l ∧ l.length < 2) →
        (∀ t0 t1, c.endParams = some (t0, t1) →
          ((runEval c view t0 t1 (max samples 2)
              (List.range (max samples 2))).2 = true →
            curve_points_in_view_xy view c samples =
              (runEval c view t0 t1 (max samples 2)
                (List.range (max samples 2))).1)
          ∧ ((runEval c view t0 t1 (max samples 2)
              (List.range (max samples 2))).2 = false →
            curve_points_in_view_xy view c samples =
              tier3_endpoints view c (runEval c view t0 t1 (max samples 2)
                (List.range (max samples 2))).1))
        ∧ (c.endParams = none →
            curve_points_in_view_xy view c samples =
              tier3_endpoints view c []))
    ∧ (∀ tol, curve_points_in_view_xy view c 11 = [] →
        classify_grid_orientation view c tol = (none, none, none))
    ∧ 2 ≤ max samples 2 := by
  have hbase : (c.tessellate = none ∨
      ∃ l, c.tessellate = some l ∧ l.length < 2) →
      curve_points_in_view_xy view c samples = tier23 view c samples := by
    rintro (h | ⟨l, hl, hlen⟩)
    · rw [curve_points_in_view_xy, h]
    · rw [curve_points_in_view_xy, hl]
      simp only
      rw [if_neg (not_le.mpr hlen)]
  refine ⟨?_, ?_, ?_, le_max_right _ _⟩
  · intro tess ht h2
    rw [curve_points_in_view_xy, ht]
    simp only
    rw [if_pos h2]
  · intro htess
    constructor
    · intro t0 t1 hep
      constructor
      · intro hr
        rw [hbase htess, tier23, hep]
        simp only
        rw [if_pos hr]
      · intro hr
        rw [hbase htess, tier23, hep]
        simp only
        rw [if_neg (by rw [hr]; exact Bool.false_ne_true)]
    · intro hep
      rw [hbase htess, tier23, hep]
  · intro tol hempty
    rw [classify_grid_orientation, hempty]
    rfl

/-- Witness for C7: a curve that tessellates to two model points returns
exactly their basis projections through the first tier. -/
theorem curve_sampler_tiered_witness :
    c3Curve.tessellate = some [⟨0, 0, 0⟩, ⟨3, 4, 0⟩] ∧
    2 ≤ ([(⟨0, 0, 0⟩ : XYZ), ⟨3, 4, 0⟩]).length ∧
    curve_points_in_view_xy stdView c3Curve 11 =
      [(⟨0, 0, 0⟩ : XYZ), ⟨3, 4, 0⟩].map (to_view_xy stdView) := by
  refine ⟨rfl, by norm_num, ?_⟩
  exact (curve_sampler_tiered stdView c3Curve 11).1 [⟨0, 0, 0⟩, ⟨3, 4, 0⟩]
    rfl (by norm_num)

/-- Curve on which the claimed endpoint-only fallback fails: tessellation
raises, evaluation succeeds only at parameter 0 and then raises, and the
endpoints are available. -/
def c7Curve : Curve :=
  ⟨none, some (0, 1), fun t => if t = 0 then some ⟨0, 0, 0⟩ else none,
   some (⟨1, 0, 0⟩, ⟨2, 0, 0⟩)⟩

/-- Counterexample for C7: on c7Curve the parametric tier fails after one
successful evaluation, and the returned sequence is the partial sample
followed by the two endpoint projections — three points — not the two curve
endpoints alone as the claim states. -/
theorem curve_sampler_partial_prefix_counterexample :
    curve_points_in_view_xy stdView c7Curve 11 = [(0, 0), (1, 0), (2, 0)] ∧
    curve_points_in_view_xy stdView c7Curve 11 ≠
      [to_view_xy stdView ⟨1, 0, 0⟩, to_view_xy stdView ⟨2, 0, 0⟩] := by
  have heval : curve_points_in_view_xy stdView c7Curve 11 =
      [(0, 0), (1, 0), (2, 0)] := by
    rw [curve_points_in_view_xy]
    norm_num [c7Curve, tier23, tier3_endpoints, runEval, List.range_succ,
      to_view_xy, XYZ.dotProduct, XYZ.sub_x, XYZ.sub_y, XYZ.sub_z, stdView,
      Prod.mk.injEq]
  refine ⟨heval, ?_⟩
  rw [heval]
  intro h
  have hlen := congrArg List.length h
  simp at hlen

theorem minByFirst_spec {α : Type} (key : α → ℝ) :
    ∀ (ys : List α) (x : α),
      minByFirst key x ys ∈ x :: ys
      ∧ (∀ c ∈ x :: ys, key (minByFirst key x ys) ≤ key c)
      ∧ ∃ pre post, x :: ys = pre ++ minByFirst key x ys :: post
          ∧ ∀ c ∈ pre, key (minByFirst key x ys) < key c := by
  intro ys
  induction ys with
  | nil =>
    intro x
    refine ⟨by simp [minByFirst], ?_, [], [], by simp [minByFirst], by simp⟩
    intro c hc
    rw [List.mem_singleton] at hc
    rw [minByFirst, hc]
  | cons y ys ih =>
    intro x
    rw [minByFirst]
    by_cases hxy : key y < key x
    · rw [if_pos hxy]
      obtain ⟨hmem, hmin, pre, post, heq, hlt⟩ := ih y
      refine ⟨List.mem_cons_of_mem x hmem, ?_, x :: pre, post, ?_, ?_⟩
      · intro c hc
        rcases List.mem_cons.mp hc with rfl | hc2
        · exact le_of_lt
            (lt_of_le_of_lt (hmin y (List.mem_cons_self y ys)) hxy)
        · exact hmin c hc2
      · rw [List.cons_append, ← heq]
      · intro c hc
        rcases List.mem_cons.mp hc with rfl | hc2
        · exact lt_of_le_of_lt (hmin y (List.mem_cons_self y ys)) hxy
        · exact hlt c hc2
    · rw [if_neg hxy]
      obtain ⟨hmem, hmin, pre, post, heq, hlt⟩ := ih x
      have hxyle : key x ≤ key y := le_of_not_lt hxy
      refine ⟨?_, ?_, ?_⟩
      · rcases List.mem_cons.mp hmem with hx | hx
        · rw [hx]
          exact List.mem_cons_self _ _
        · exact List.mem_cons_of_mem x (List.mem_cons_of_mem y hx)
      · intro c hc
        rcases List.mem_cons.mp hc with hc1 | hc2
        · rw [hc1]
          exact hmin x (List.mem_cons_self x ys)
        rcases List.mem_cons.mp hc2 with hc1 | hc3
        · rw [hc1]
          exact le_trans (hmin x (List.mem_cons_self x ys)) hxyle
        · exact hmin c (List.mem_cons_of_mem x hc3)
      · cases pre with
        | nil =>
          simp only [List.nil_append] at heq
          injection heq with h1 h2
          refine ⟨[], y :: post, ?_, by simp⟩
          rw [List.nil_append, ← h1, ← h2]
        | cons a pre2 =>
          rw [List.cons_append] at heq
          injection heq with h1 h2
          refine ⟨x :: y :: pre2, post, ?_, ?_⟩
          · simp only [List.cons_append]
            rw [← h2]
          · have hxpre : key (minByFirst key x ys) < key x := by
              refine hlt x ?_
              rw [h1]
              exact List.mem_cons_self a pre2
            intro c hc
            rcases List.mem_cons.mp hc with rfl | hc2
            · exact hxpre
            rcases List.mem_cons.mp hc2 with rfl | hc3
            · exact lt_of_lt_of_le hxpre hxyle
            · exact hlt c (List.mem_cons_of_mem a hc3)

/-- View basis of the anchor scenario: origin (10, 10, 0) with the standard
right and up directions. -/
def anchorView : ViewBasis := ⟨⟨10, 10, 0⟩, ⟨1, 0, 0⟩, ⟨0, 1, 0⟩⟩

/-- Vertical grid of the anchor scenario, tessellating to the model points
(10, 9, 0) and (10, 11, 0), ie mean x 0 in the anchor basis. -/
def c2VCurve : Curve :=
  ⟨some [⟨10, 9, 0⟩, ⟨10, 11, 0⟩], none, fun _ => none, none⟩

/-- Horizontal grid of the anchor scenario, tessellating to the model points
(9, 10, 0) and (11, 10, 0), ie mean y 0 in the anchor basis. -/
def c2HCurve : Curve :=
  ⟨some [⟨9, 10, 0⟩, ⟨11, 10, 0⟩], none, fun _ => none, none⟩

theorem c2V_points :
    curve_points_in_view_xy anchorView c2VCurve 11 = [(0, -1), (0, 1)] := by
  rw [curve_points_in_view_xy]
  norm_num [c2VCurve, anchorView, to_view_xy, XYZ.dotProduct, XYZ.sub_x,
    XYZ.sub_y, XYZ.sub_z, Prod.mk.injEq]

theorem c2H_points :
    curve_points_in_view_xy anchorView c2HCurve 11 = [(-1, 0), (1, 0)] := by
  rw [curve_points_in_view_xy]
  norm_num [c2HCurve, anchorView, to_view_xy, XYZ.dotProduct, XYZ.sub_x,
    XYZ.sub_y, XYZ.sub_z, Prod.mk.injEq]

theorem c2V_classify :
    classify_grid_orientation anchorView c2VCurve (15 / 100) =
      (some Orientation.vertical, some 0, some 0) := by
  rw [classify_grid_orientation, c2V_points]
  rw [classify_pts_eval (0, -1) (0, 1) [] (15 / 100) 0 2 2 0 0
    (by simp [List.getLast]) (by simp [List.getLast]; norm_num)
    (by rw [show (0 : ℝ) ^ 2 + 2 ^ 2 = 4 by norm_num]
        exact (sqrt_eq_of_mul_self (by norm_num) (by norm_num)).symm)
    (by norm_num) (by norm_num)]
  rw [if_neg (by norm_num), if_pos (by norm_num)]

theorem c2H_classify :
    classify_grid_orientation anchorView c2HCurve (15 / 100) =
      (some Orientation.horizontal, some 0, some 0) := by
  rw [classify_grid_orientation, c2H_points]
  rw [classify_pts_eval (-1, 0) (1, 0) [] (15 / 100) 2 0 2 0 0
    (by simp [List.getLast]; norm_num) (by simp [List.getLast])
    (by rw [show (2 : ℝ) ^ 2 + 0 ^ 2 = 4 by norm_num]
        exact (sqrt_eq_of_mul_self (by norm_num) (by norm_num)).symm)
    (by norm_num) (by norm_num)]
  rw [if_neg (by norm_num), if_neg (by norm_num), if_pos (by norm_num)]

theorem c2_vert_candidates :
    vertical_candidates anchorView [c2VCurve, c2HCurve] (15 / 100) =
      [(0, 0)] := by
  rw [vertical_candidates]
  simp only [List.foldr_cons, List.foldr_nil, c2V_classify, c2H_classify]

theorem c2_horiz_candidates :
    horizontal_candidates anchorView [c2VCurve, c2HCurve] (15 / 100) =
      [(0, 0)] := by
  rw [horizontal_candidates]
  simp only [List.foldr_cons, List.foldr_nil, c2V_classify, c2H_classify]

/-- C2: the anchor locator returns none when either candidate list is empty;
otherwise it lifts, through the view basis, the mean x of the vertical
candidate with minimum mean x and the mean y of the horizontal candidate
with minimum mean y, the first-encountered candidate winning exact ties
(the chosen candidate splits its list so that everything before it has a
strictly larger key); in particular a vertical grid at mean x 0 and a
horizontal grid at mean y 0 in the basis with origin (10, 10, 0) give the
anchor (10, 10, 0). -/
theorem locate_anchor_spec :
    (∀ (view : ViewBasis) (grids : List Curve) (tol : ℝ),
      (vertical_candidates view grids tol = [] ∨
        horizontal_candidates view grids tol = []) →
      find_bottom_left_grid_intersection view grids tol = none)
    ∧ (∀ (view : ViewBasis) (grids : List Curve) (tol : ℝ)
        (v h : ℝ × ℝ) (vs hs : List (ℝ × ℝ)),
        vertical_candidates view grids tol = v :: vs →
        horizontal_candidates view grids tol = h :: hs →
        (find_bottom_left_grid_intersection view grids tol =
          some (from_view_xy view (minByFirst (fun t => t.1) v vs).1
            (minByFirst (fun t => t.2) h hs).2))
        ∧ minByFirst (fun t => t.1) v vs ∈ v :: vs
        ∧ (∀ cand ∈ v :: vs, (minByFirst (fun t => t.1) v vs).1 ≤ cand.1)
        ∧ (∃ pre post,
            v :: vs = pre ++ minByFirst (fun t => t.1) v vs :: post
            ∧ ∀ cand ∈ pre, (minByFirst (fun t => t.1) v vs).1 < cand.1)
        ∧ minByFirst (fun t => t.2) h hs ∈ h :: hs
        ∧ (∀ cand ∈ h :: hs, (minByFirst (fun t => t.2) h hs).2 ≤ cand.2)
        ∧ (∃ pre post,
            h :: hs = pre ++ minByFirst (fun t => t.2) h hs :: post
            ∧ ∀ cand ∈ pre, (minByFirst (fun t => t.2) h hs).2 < cand.2))
    ∧ find_bottom_left_grid_intersection anchorView [c2VCurve, c2HCurve]
        (15 / 100) = some ⟨10, 10, 0⟩ := by
  refine ⟨?_, ?_, ?_⟩
  · intro view grids tol hd
    rcases grids with _ | ⟨g, gs⟩
    · rfl
    · rw [find_bottom_left_grid_intersection]
      rcases hd with hv | hh
      · rw [hv]
      · rcases hv2 : vertical_candidates view (g :: gs) tol with _ | ⟨v, vs⟩
        · rfl
        · rw [hh]
  · intro view grids tol v h vs hs hv hh
    rcases grids with _ | ⟨g, gs⟩
    · simp [vertical_candidates] at hv
    obtain ⟨vmem, vmin, vfirst⟩ := minByFirst_spec (fun t => t.1) vs v
    obtain ⟨hmem, hmin, hfirst⟩ := minByFirst_spec (fun t => t.2) hs h
    refine ⟨?_, vmem, vmin, vfirst, hmem, hmin, hfirst⟩
    rw [find_bottom_left_grid_intersection, hv, hh]
  · rw [find_bottom_left_grid_intersection, c2_vert_candidates,
      c2_horiz_candidates]
    show some (from_view_xy anchorView
        (minByFirst (fun t => t.1) ((0 : ℝ), (0 : ℝ)) []).1
        (minByFirst (fun t => t.2) ((0 : ℝ), (0 : ℝ)) []).2) =
      some ⟨10, 10, 0⟩
    norm_num [minByFirst, from_view_xy, anchorView, XYZ.multiply,
      XYZ.add_def, XYZ.mk.injEq]

/-- Witness for C2: on the anchor scenario the candidate lists are the
singletons [(0, 0)] and the locator returns the lifted anchor. -/
theorem locate_anchor_spec_witness :
    find_bottom_left_grid_intersection anchorView [c2VCurve, c2HCurve]
      (15 / 100) =
      some (from_view_xy anchorView
        (minByFirst (fun t => t.1) ((0 : ℝ), (0 : ℝ)) []).1
        (minByFirst (fun t => t.2) ((0 : ℝ), (0 : ℝ)) []).2) :=
  (locate_anchor_spec.2.1 anchorView [c2VCurve, c2HCurve] (15 / 100)
    (0, 0) (0, 0) [] [] c2_vert_candidates c2_horiz_candidates).1

/-- Legacy sheet-point reconstruction from
get_sheet_point_from_model_point_legacy: the viewport box-center plus the
view-plane offset of the model point from the crop-box center, divided by the
view scale (the viewport is assumed unrotated). -/
def get_sheet_point_from_model_point_legacy (view : ViewBasis)
    (crop_min crop_max : XYZ) (scale : ℝ) (box_center : XYZ)
    (model_point : XYZ) : XYZ :=
  let crop_center : XYZ := ⟨(crop_min.x + crop_max.x) / 2,
    (crop_min.y + crop_max.y) / 2, (crop_min.z + crop_max.z) / 2⟩
  let anchor := to_view_xy view model_point
  let delta_x_model := anchor.1 - crop_center.x
  let delta_y_model := anchor.2 - crop_center.y
  let delta_x_sheet := delta_x_model / scale
  let delta_y_sheet := delta_y_model / scale
  box_center + ⟨delta_x_sheet, delta_y_sheet, 0⟩

/-- Modelled from the spec: the direct-transform strategy applies the
host-provided affine viewport transform to the model point; that transform is
not part of the repository, and for an unrotated, unit-scale viewport the
spec gives it as box_center plus the view-plane offset of the model point
from the crop center (no scaling, no rotation). -/
def direct_transform_unit_unrotated (view : ViewBasis)
    (crop_min crop_max : XYZ) (box_center : XYZ) (model_point : XYZ) : XYZ :=
  box_center +
    ⟨(to_view_xy view model_point).1 - (crop_min.x + crop_max.x) / 2,
     (to_view_xy view model_point).2 - (crop_min.y + crop_max.y) / 2, 0⟩

/-- C5: for an unrotated viewport with unit scale the direct strategy and the
legacy reconstructed strategy compute the same sheet point — they are equal,
hence within 1e-6 model units. -/
theorem legacy_direct_agreement (view : ViewBasis)
    (crop_min crop_max box_center model_point : XYZ) :
    get_sheet_point_from_model_point_legacy view crop_min crop_max 1
        box_center model_point =
      direct_transform_unit_unrotated view crop_min crop_max box_center
        model_point
    ∧ XYZ.distanceTo
        (get_sheet_point_from_model_point_legacy view crop_min crop_max 1
          box_center model_point)
        (direct_transform_unit_unrotated view crop_min crop_max box_center
          model_point) < 1 / 1000000 := by
  have he : get_sheet_point_from_model_point_legacy view crop_min crop_max 1
      box_center model_point =
      direct_transform_unit_unrotated view crop_min crop_max box_center
        model_point := by
    rw [get_sheet_point_from_model_point_legacy,
      direct_transform_unit_unrotated]
    simp only [div_one]
  refine ⟨he, ?_⟩
  rw [he, XYZ.distanceTo_self]
  norm_num

/-- Discrete viewport rotation values distinguished by the text-placement
script; unknownValue stands for any enum value outside the handled set. -/
inductive ViewportRotation where
  | noRotation
  | ninetyCCW
  | clockwise
  | halfway
  | unknownValue
deriving DecidableEq

/-- Scaled view-plane offset from the text-placement script: the model offset
vector divided componentwise by the view scale. -/
def scaled_offset (v : XYZ) (scale : ℝ) : XYZ :=
  ⟨v.x / scale, v.y / scale, v.z / scale⟩

/-- Sheet-space offset vector from the rotation if-chain of the
text-placement script: the 2D rotation matrix matching the discrete rotation
applied to the scaled offset, or none for an unhandled rotation value. -/
def offset_vector_sheet (rotation : ViewportRotation) (scaled : XYZ) :
    Option XYZ :=
  match rotation with
  | ViewportRotation.noRotation => some ⟨scaled.x, scaled.y, 0⟩
  | ViewportRotation.ninetyCCW => some ⟨-scaled.y, scaled.x, 0⟩
  | ViewportRotation.clockwise => some ⟨scaled.y, -scaled.x, 0⟩
  | ViewportRotation.halfway => some ⟨-scaled.x, -scaled.y, 0⟩
  | ViewportRotation.unknownValue => none

/-- Final text location from the text-placement script: the viewport
box-center plus the rotated offset when the rotation is supported; no
location (the script reports the unsupported rotation) otherwise. -/
def text_location_sheet (center : XYZ) (rotation : ViewportRotation)
    (scaled : XYZ) : Option XYZ :=
  (offset_vector_sheet rotation scaled).map (fun o => center + o)

/-- C6: the rotation-aware mapping applies the matching 2D rotation matrix to
the scaled view-plane offset before adding the box-center — 90 degrees
counterclockwise sends (x, y) to (-y, x) and in particular (3, 4) to
(-4, 3), 90 degrees clockwise sends (x, y) to (y, -x), 180 degrees sends
(x, y) to (-x, -y) — and a rotation outside the known discrete set produces
no sheet point at all rather than silently defaulting to some rotation. -/
theorem rotation_mapping_spec :
    (∀ (c v : XYZ), text_location_sheet c ViewportRotation.ninetyCCW v =
      some (c + ⟨-v.y, v.x, 0⟩))
    ∧ (∀ (c v : XYZ), text_location_sheet c ViewportRotation.clockwise v =
      some (c + ⟨v.y, -v.x, 0⟩))
    ∧ (∀ (c v : XYZ), text_location_sheet c ViewportRotation.halfway v =
      some (c + ⟨-v.x, -v.y, 0⟩))
    ∧ (∀ (c v : XYZ), text_location_sheet c ViewportRotation.noRotation v =
      some (c + ⟨v.x, v.y, 0⟩))
    ∧ offset_vector_sheet ViewportRotation.ninetyCCW ⟨3, 4, 0⟩ =
      some ⟨-4, 3, 0⟩
    ∧ (∀ (c v : XYZ),
      text_location_sheet c ViewportRotation.unknownValue v = none) := by
  refine ⟨fun c v => rfl, fun c v => rfl, fun c v => rfl, fun c v => rfl,
    ?_, fun c v => rfl⟩
  rw [offset_vector_sheet]

end AutoRev
